import Mathlib

/-!
Verification of the atomic-primitives toolkit in go/examples/atomic_examples.go.

The Go code is shallowly embedded: each type's state is a Lean structure (or a
plain integer for single-field types), and each method is a pure function on
that state.  Machine integers are modelled as Int with an explicit wrap to the
signed 32-bit or 64-bit range where Go's fixed-width arithmetic can overflow.
The embedding is sequential: each theorem quantifies over sequences of
operations, which covers every linearisation of the source's atomic operations.
-/

/-- Signed 32-bit wraparound, the semantics of Go int32 addition. -/
def wrap32 (x : Int) : Int := (x + 2147483648) % 4294967296 - 2147483648

/-- Signed 64-bit wraparound, the semantics of Go int64 addition. -/
def wrap64 (x : Int) : Int :=
  (x + 9223372036854775808) % 18446744073709551616 - 9223372036854775808

theorem wrap32_range (x : Int) : -2147483648 ≤ wrap32 x ∧ wrap32 x < 2147483648 := by
  unfold wrap32; omega

theorem wrap32_eq_self (x : Int) (h1 : -2147483648 ≤ x) (h2 : x < 2147483648) :
    wrap32 x = x := by
  unfold wrap32; omega

namespace AtomicCounter

/-- `AtomicCounter` state: the int64 `value` field. -/
def increment (c : Int) : Int := wrap64 (c + 1)

def decrement (c : Int) : Int := wrap64 (c - 1)

def get (c : Int) : Int := c

def set (_c v : Int) : Int := v

/-- `CompareAndSwapInt64`: swap iff the current value equals `old`.
Returns (success, value afterwards). -/
def compareAndSet (c old new : Int) : Bool × Int :=
  if c = old then (true, new) else (false, c)

end AtomicCounter

namespace AtomicFlag

/-- `AtomicFlag` state: the int32 `flag` field. -/
def set (_f : Int) : Int := 1

def clear (_f : Int) : Int := 0

def isSet (f : Int) : Bool := decide (f = 1)

/-- `Toggle`: reads the flag, stores `int32(1) - old`, and returns whether the
value it stored is 1.  The CAS retry loop always succeeds at its first
attempt in a sequential model, so the loop body is the whole function. -/
def toggle (f : Int) : Bool × Int :=
  (decide (wrap32 (1 - f) = 1), wrap32 (1 - f))

/-- The flag after `n` successive `Toggle` calls starting from `f`. -/
def toggleRun (f : Int) : Nat → Int
  | 0 => f
  | Nat.succ k => (toggle (toggleRun f k)).2

end AtomicFlag

theorem toggleRun_mem (f : Int) (hf : f = 0 ∨ f = 1) (n : Nat) :
    AtomicFlag.toggleRun f n = 0 ∨ AtomicFlag.toggleRun f n = 1 := by
  induction n with
  | zero => exact hf
  | succ k ih =>
    rcases ih with h | h <;>
      simp [AtomicFlag.toggleRun, AtomicFlag.toggle, h, wrap32]

theorem toggleRun_succ (f : Int) (hf : f = 0 ∨ f = 1) (n : Nat) :
    AtomicFlag.toggleRun f (n + 1) = 1 - AtomicFlag.toggleRun f n := by
  have h := toggleRun_mem f hf n
  rcases h with h | h <;>
    simp [AtomicFlag.toggleRun, AtomicFlag.toggle, h, wrap32]

/-- Claim C2: for every counter state `v` and pair `(expected, newValue)`,
`CompareAndSet` returns true and leaves the counter at `newValue` when
`v = expected`, and otherwise returns false and leaves the counter at `v`. -/
theorem counter_compareAndSet_spec (v expected newValue : Int) :
    (v = expected → AtomicCounter.compareAndSet v expected newValue = (true, newValue)) ∧
    (v ≠ expected → AtomicCounter.compareAndSet v expected newValue = (false, v)) := by
  constructor
  · intro h; simp [AtomicCounter.compareAndSet, h]
  · intro h; simp [AtomicCounter.compareAndSet, h]

theorem counter_compareAndSet_spec_witness :
    AtomicCounter.compareAndSet 100 100 200 = (true, 200) ∧
    AtomicCounter.compareAndSet 200 100 300 = (false, 200) :=
  ⟨(counter_compareAndSet_spec 100 100 200).1 rfl,
   (counter_compareAndSet_spec 200 100 300).2 (by decide)⟩

/-- Claim C3: starting from a flag state `f` in 0 or 1, after `n` `Toggle`
calls the state equals `f` flipped `n mod 2` times, and each call returns
exactly the state that call produced (true iff the value it stored is 1),
which is the complement of the state it replaced. -/
theorem flag_toggle_parity (f : Int) (hf : f = 0 ∨ f = 1) (n : Nat) :
    (AtomicFlag.toggleRun f n = if n % 2 = 0 then f else 1 - f) ∧
    ((AtomicFlag.toggle (AtomicFlag.toggleRun f n)).1 =
      decide (AtomicFlag.toggleRun f (n + 1) = 1)) ∧
    (AtomicFlag.toggleRun f (n + 1) = 1 - AtomicFlag.toggleRun f n) := by
  refine ⟨?_, rfl, toggleRun_succ f hf n⟩
  induction n with
  | zero => simp [AtomicFlag.toggleRun]
  | succ k ih =>
    rw [toggleRun_succ f hf k, ih]
    rcases Nat.even_or_odd k with hk | hk
    · have h0 : k % 2 = 0 := Nat.even_iff.mp hk
      have h1 : (k + 1) % 2 = 1 := by omega
      simp [h0, h1]
    · have h0 : k % 2 = 1 := Nat.odd_iff.mp hk
      have h1 : (k + 1) % 2 = 0 := by omega
      simp [h0, h1]

theorem flag_toggle_parity_witness :
    (AtomicFlag.toggleRun 0 3 = if 3 % 2 = 0 then (0 : Int) else 1 - 0) ∧
    ((AtomicFlag.toggle (AtomicFlag.toggleRun 0 3)).1 =
      decide (AtomicFlag.toggleRun 0 (3 + 1) = 1)) ∧
    (AtomicFlag.toggleRun 0 (3 + 1) = 1 - AtomicFlag.toggleRun 0 3) :=
  flag_toggle_parity 0 (Or.inl rfl) 3

/-- Operations on a `ReferenceCounter`. -/
inductive RCOp
  | acquire
  | release
deriving DecidableEq, Repr

/-- `ReferenceCounter` state: the int32 `refs` field, and the number of times
the `onZero` callback has been invoked (the callback is taken non-nil, as in
the repository's own test). -/
structure RCState where
  refs : Int
  fires : Nat
deriving DecidableEq, Repr

/-- One `Acquire` (`AddInt32(&refs, 1)`) or `Release` (`AddInt32(&refs, -1)`,
then invoke `onZero` iff the new value is exactly 0). -/
def rcStep (s : RCState) : RCOp → RCState
  | RCOp.acquire => { s with refs := wrap32 (s.refs + 1) }
  | RCOp.release =>
      { refs := wrap32 (s.refs - 1),
        fires := if wrap32 (s.refs - 1) = 0 then s.fires + 1 else s.fires }

/-- Run a sequence of `Acquire`/`Release` calls. -/
def rcRun (s : RCState) (ops : List RCOp) : RCState := ops.foldl rcStep s

/-- `NewReferenceCounter`: refs starts at 1, callback not yet invoked. -/
def newReferenceCounter : RCState := { refs := 1, fires := 0 }

theorem rcRun_cons (s : RCState) (op : RCOp) (rest : List RCOp) :
    rcRun s (op :: rest) = rcRun (rcStep s op) rest := rfl

theorem rcStep_refs_range (s : RCState) (op : RCOp) :
    -2147483648 ≤ (rcStep s op).refs ∧ (rcStep s op).refs < 2147483648 := by
  cases op <;> simp [rcStep] <;> exact wrap32_range _

/-- Along a run whose count starts at least 1, stays at least 1 at every
proper non-empty prefix, and ends at exactly 0, the callback is invoked
exactly once, the final operation is a `Release`, and the count just before
that final `Release` is 1. -/
theorem rc_clean_run (ops : List RCOp) :
    ∀ s : RCState, 1 ≤ s.refs → s.refs < 2147483648 →
    ops ≠ [] →
    (∀ p t, p ++ t = ops → p ≠ [] → t ≠ [] → 1 ≤ (rcRun s p).refs) →
    (rcRun s ops).refs = 0 →
    (rcRun s ops).fires = s.fires + 1 ∧
    ops.getLast? = some RCOp.release ∧
    (rcRun s ops.dropLast).refs = 1 := by
  induction ops with
  | nil => intro s _ _ hne _ _; exact absurd rfl hne
  | cons op rest ih =>
    intro s h1 h2 _ hpre hz
    by_cases hr : rest = []
    · subst hr
      cases op with
      | acquire =>
        exfalso
        simp [rcRun, rcStep, wrap32] at hz
        omega
      | release =>
        have hz' : wrap32 (s.refs - 1) = 0 := by
          simpa [rcRun, rcStep] using hz
        have hs1 : s.refs = 1 := by
          unfold wrap32 at hz'; omega
        refine ⟨?_, rfl, ?_⟩
        · simp [rcRun, rcStep, hz']
        · simpa [rcRun] using hs1
    · have h1' : 1 ≤ (rcStep s op).refs := by
        have := hpre [op] rest rfl (by simp) hr
        simpa [rcRun, rcRun_cons] using this
      have hrange := rcStep_refs_range s op
      have hfi : (rcStep s op).fires = s.fires := by
        cases op with
        | acquire => simp [rcStep]
        | release =>
          have hnz : wrap32 (s.refs - 1) ≠ 0 := by
            simp only [rcStep] at h1'
            omega
          simp [rcStep, hnz]
      have hpre' : ∀ p t, p ++ t = rest → p ≠ [] → t ≠ [] →
          1 ≤ (rcRun (rcStep s op) p).refs := by
        intro p t hpt hp ht
        have := hpre (op :: p) t (by simp [hpt]) (by simp) ht
        simpa [rcRun_cons] using this
      have hz' : (rcRun (rcStep s op) rest).refs = 0 := by
        simpa [rcRun_cons] using hz
      obtain ⟨hf, hl, hd⟩ := ih (rcStep s op) h1' hrange.2 hr hpre' hz'
      obtain ⟨a, rest', rfl⟩ := List.exists_cons_of_ne_nil hr
      refine ⟨?_, ?_, ?_⟩
      · rw [rcRun_cons]
        rw [hf, hfi]
      · simpa using hl
      · rw [List.dropLast_cons₂, rcRun_cons]
        exact hd

/-- Claim C1 (amended): for a `ReferenceCounter` created at count 1, over any
non-empty sequence of `Acquire`/`Release` calls whose count stays at least 1
at every proper non-empty prefix and reaches 0 exactly at the end, the
zero-crossing callback is invoked exactly once, and it is invoked at the
final call, which is the `Release` taking the count from 1 to 0.  (If the
sequence continues past the zero crossing, the code invokes the callback
again at each later 1-to-0 crossing; see the counterexample.) -/
theorem refCounter_callback_fires_once (ops : List RCOp)
    (hne : ops ≠ [])
    (hpos : ∀ p t, p ++ t = ops → p ≠ [] → t ≠ [] →
      1 ≤ (rcRun newReferenceCounter p).refs)
    (hzero : (rcRun newReferenceCounter ops).refs = 0) :
    (rcRun newReferenceCounter ops).fires = 1 ∧
    ops.getLast? = some RCOp.release ∧
    (rcRun newReferenceCounter ops.dropLast).refs = 1 :=
  rc_clean_run ops newReferenceCounter (by decide) (by decide) hne hpos hzero

theorem refCounter_callback_fires_once_witness :
    (rcRun newReferenceCounter [RCOp.acquire, RCOp.release, RCOp.release]).fires = 1 ∧
    [RCOp.acquire, RCOp.release, RCOp.release].getLast? = some RCOp.release ∧
    (rcRun newReferenceCounter
      [RCOp.acquire, RCOp.release, RCOp.release].dropLast).refs = 1 := by
  refine refCounter_callback_fires_once [RCOp.acquire, RCOp.release, RCOp.release]
    (by decide) ?_ (by decide)
  intro p t hpt hp ht
  cases p with
  | nil => exact absurd rfl hp
  | cons a p' =>
    cases p' with
    | nil =>
      have : a = RCOp.acquire ∧ t = [RCOp.release, RCOp.release] := by
        simpa using hpt
      rcases this with ⟨rfl, rfl⟩
      decide
    | cons b p'' =>
      cases p'' with
      | nil =>
        have : a = RCOp.acquire ∧ b = RCOp.release ∧ t = [RCOp.release] := by
          simpa using hpt
        rcases this with ⟨rfl, rfl, rfl⟩
        decide
      | cons c p''' =>
        have : a = RCOp.acquire ∧ b = RCOp.release ∧ c = RCOp.release ∧
            p''' = [] ∧ t = [] := by
          simpa [List.append_eq_nil] using hpt
        exact absurd this.2.2.2.2 ht

/-- Claim C1, original form, is false on the code: the sequence
Release, Acquire, Release from initial count 1 reaches 0 (already after its
first call), yet the callback is invoked twice, once at each 1-to-0
crossing — not exactly once. -/
theorem refCounter_callback_twice_counterexample :
    (rcRun newReferenceCounter [RCOp.release]).refs = 0 ∧
    (rcRun newReferenceCounter [RCOp.release, RCOp.acquire, RCOp.release]).fires = 2 := by
  decide

/-- Claim C5, as stated, is false on the code: calling `Release` with the
count already at 0 neither panics (the function is total: `AddInt32` and the
guarded callback call have no failure path) nor saturates at 0 — it silently
drives the count to -1.  The state with count 0 is reachable from a fresh
counter by a single `Release`. -/
theorem refCounter_release_past_zero_counterexample :
    rcRun newReferenceCounter [RCOp.release] = { refs := 0, fires := 1 } ∧
    (rcStep { refs := 0, fires := 1 } RCOp.release).refs = -1 := by
  decide

/-- Claim C5 (amended): when `Release` is called with the count already at 0,
the implementation neither panics nor saturates: it silently decrements the
count to -1, and the callback is not invoked by that call. -/
theorem refCounter_release_past_zero (s : RCState) (h0 : s.refs = 0) :
    (rcStep s RCOp.release).refs = -1 ∧ (rcStep s RCOp.release).fires = s.fires := by
  have hm1 : wrap32 (s.refs - 1) = -1 := by rw [h0]; decide
  constructor
  · simp [rcStep, hm1]
  · simp [rcStep, hm1]

theorem refCounter_release_past_zero_witness :
    (rcStep { refs := 0, fires := 1 } RCOp.release).refs = -1 ∧
    (rcStep { refs := 0, fires := 1 } RCOp.release).fires =
      (RCState.mk 0 1).fires :=
  refCounter_release_past_zero { refs := 0, fires := 1 } rfl

/-- The `Config` struct: `MaxConnections`, `Timeout`, `Debug`. -/
structure Config where
  maxConnections : Int
  timeout : Int
  debug : Bool
deriving DecidableEq, Repr

/-- `AtomicConfig` state: the `atomic.Value` slot.  `none` models the unset
zero value of `atomic.Value`; `Load` on it returns nil and the type assertion
`.(Config)` in `Get` would panic, so `get` returning `none` is the
undocumented-failure case. -/
structure AtomicConfig where
  config : Option Config
deriving DecidableEq, Repr

/-- `NewAtomicConfig` stores the mandatory initial snapshot before returning. -/
def newAtomicConfig (initial : Config) : AtomicConfig :=
  { config := some initial }

def AtomicConfig.get (ac : AtomicConfig) : Option Config := ac.config

def AtomicConfig.update (_ac : AtomicConfig) (cfg : Config) : AtomicConfig :=
  { config := some cfg }

/-- The `AtomicConfig` values constructible through the package's interface:
built by `NewAtomicConfig` and evolved by `Update`. -/
inductive AtomicConfig.Reachable : AtomicConfig → Prop
  | new (initial : Config) : Reachable (newAtomicConfig initial)
  | update (ac : AtomicConfig) (cfg : Config) :
      Reachable ac → Reachable (ac.update cfg)

/-- Claim C4: construction takes a mandatory initial snapshot which is stored
before the constructor returns, so for every `AtomicConfig` constructible
through the interface, `Get` always finds a stored snapshot — the
load-before-any-store failure (a nil type assertion) is unreachable. -/
theorem atomicConfig_get_never_fails (ac : AtomicConfig)
    (h : AtomicConfig.Reachable ac) : ∃ c, ac.get = some c := by
  induction h with
  | new initial => exact ⟨initial, rfl⟩
  | update ac cfg _ _ => exact ⟨cfg, rfl⟩

theorem atomicConfig_get_never_fails_witness :
    (newAtomicConfig { maxConnections := 100, timeout := 5, debug := false }).get
      ≠ none := by
  obtain ⟨c, hc⟩ := atomicConfig_get_never_fails
    (newAtomicConfig { maxConnections := 100, timeout := 5, debug := false })
    (AtomicConfig.Reachable.new { maxConnections := 100, timeout := 5, debug := false })
  simp [hc]

/-- `Metrics` state: the three int64 counters. -/
structure Metrics where
  requests : Int
  errors : Int
  totalBytes : Int
deriving DecidableEq, Repr

/-- The Go zero value `Metrics{}`, the freshly initialized aggregator. -/
def Metrics.init : Metrics := { requests := 0, errors := 0, totalBytes := 0 }

def Metrics.recordRequest (m : Metrics) : Metrics :=
  { m with requests := wrap64 (m.requests + 1) }

def Metrics.recordError (m : Metrics) : Metrics :=
  { m with errors := wrap64 (m.errors + 1) }

def Metrics.recordBytes (m : Metrics) (bytes : Int) : Metrics :=
  { m with totalBytes := wrap64 (m.totalBytes + bytes) }

def Metrics.getSnapshot (m : Metrics) : Int × Int × Int :=
  (m.requests, m.errors, m.totalBytes)

def Metrics.reset (_m : Metrics) : Metrics :=
  { requests := 0, errors := 0, totalBytes := 0 }

/-- Claim C6: from a freshly initialized aggregator, after `RecordRequest`
twice, `RecordError` once and `RecordBytes 1024`, the snapshot is exactly
(2, 1, 1024); after a subsequent `Reset` the snapshot is exactly (0, 0, 0). -/
theorem metrics_scenario :
    (((Metrics.init.recordRequest.recordRequest.recordError).recordBytes 1024).getSnapshot
      = (2, 1, 1024)) ∧
    ((((Metrics.init.recordRequest.recordRequest.recordError).recordBytes 1024).reset).getSnapshot
      = (0, 0, 0)) := by
  decide

/-- `SafeMap` state: the `sync.Map` contents (modelled as an association list
with the `Load`/`Store`/`LoadAndDelete` semantics of a map) and the int64
`size` field.  Go's `interface\x7b\x7d` values are the type parameter `V`. -/
structure SafeMap (V : Type) where
  m : List (String × V)
  size : Int
deriving DecidableEq, Repr

/-- The Go zero value of `SafeMap`: empty map, size 0. -/
def SafeMap.empty {V : Type} : SafeMap V := { m := [], size := 0 }

/-- `Get`: `sync.Map.Load`; `none` is the `found == false` case. -/
def SafeMap.get {V : Type} (sm : SafeMap V) (key : String) : Option V :=
  sm.m.lookup key

/-- `Set`: check existence via `Load`, `Store` the value (overwriting any
previous binding), and increment `size` only if the key was absent. -/
def SafeMap.set {V : Type} (sm : SafeMap V) (key : String) (value : V) : SafeMap V :=
  { m := (key, value) :: sm.m.filter (fun p => p.1 != key),
    size := if (sm.m.lookup key).isSome then sm.size else wrap64 (sm.size + 1) }

/-- `Delete`: `LoadAndDelete` the key, and decrement `size` only if the key
was present (`loaded`). -/
def SafeMap.delete {V : Type} (sm : SafeMap V) (key : String) : SafeMap V :=
  { m := sm.m.filter (fun p => p.1 != key),
    size := if (sm.m.lookup key).isSome then wrap64 (sm.size - 1) else sm.size }

/-- Claim C7: the sequential scenario — after `Set "k" "v1"` the size is 1;
after the overwrite `Set "k" "v2"` the size is still 1 and `Get "k"` returns
"v2" with found true; after `Delete "k"` the size is 0 and `Get "k"` reports
not found.  In general, `Set` increments the size counter (as an int64) only
when the key was absent, and `Delete` decrements it only when the key was
present. -/
theorem safeMap_scenario_and_size_discipline (V : Type) (sm : SafeMap V)
    (k : String) (v : V) :
    (((SafeMap.empty : SafeMap String).set "k" "v1").size = 1 ∧
     (((SafeMap.empty : SafeMap String).set "k" "v1").set "k" "v2").size = 1 ∧
     (((SafeMap.empty : SafeMap String).set "k" "v1").set "k" "v2").get "k"
       = some "v2" ∧
     ((((SafeMap.empty : SafeMap String).set "k" "v1").set "k" "v2").delete "k").size
       = 0 ∧
     ((((SafeMap.empty : SafeMap String).set "k" "v1").set "k" "v2").delete "k").get "k"
       = none) ∧
    ((sm.get k).isSome = true → (sm.set k v).size = sm.size) ∧
    ((sm.get k).isSome = false → (sm.set k v).size = wrap64 (sm.size + 1)) ∧
    ((sm.get k).isSome = true → (sm.delete k).size = wrap64 (sm.size - 1)) ∧
    ((sm.get k).isSome = false → (sm.delete k).size = sm.size) := by
  refine ⟨by decide, ?_, ?_, ?_, ?_⟩ <;> intro h
  · have h' : (sm.m.lookup k).isSome = true := h
    simp [SafeMap.set, h']
  · have h' : (sm.m.lookup k).isSome = false := h
    simp [SafeMap.set, h']
  · have h' : (sm.m.lookup k).isSome = true := h
    simp [SafeMap.delete, h']
  · have h' : (sm.m.lookup k).isSome = false := h
    simp [SafeMap.delete, h']

theorem safeMap_scenario_and_size_discipline_witness :
    ((SafeMap.empty : SafeMap String).set "k" "v1").size =
      wrap64 ((SafeMap.empty : SafeMap String).size + 1) :=
  (safeMap_scenario_and_size_discipline String SafeMap.empty "k" "v1").2.2.1 rfl

/-- Claim C10: the zero value of each struct-valued primitive is its valid
empty initial state: a zero-valued `AtomicCounter` reads 0, a zero-valued
`AtomicFlag` is not set, and a zero-valued `SafeMap` has size 0 and finds no
key. -/
theorem zero_values_are_valid_initial_states :
    AtomicCounter.get 0 = 0 ∧
    AtomicFlag.isSet 0 = false ∧
    (∀ V : Type, (SafeMap.empty : SafeMap V).size = 0) ∧
    (∀ (V : Type) (k : String), (SafeMap.empty : SafeMap V).get k = none) :=
  ⟨rfl, rfl, fun _ => rfl, fun _ _ => rfl⟩

/-- `Worker` state: the int32 `running` flag (as a Bool), the int64
`processed` counter, the buffered `workQueue` channel (a FIFO list, capacity
100 as in `NewWorker`), whether `stopSignal` has been closed, and whether a
spawned `run` task has not yet returned.  The model tracks one background
task, which covers every trace considered here (a new task is spawned only
after the previous one has returned). -/
structure Worker where
  running : Bool
  processed : Int
  workQueue : List Int
  stopClosed : Bool
  taskAlive : Bool
deriving DecidableEq, Repr

/-- `NewWorker()`: takes no parameter; the queue capacity is the literal 100
in `make(chan int, 100)`, and `stopSignal` is a fresh (open) channel. -/
def newWorker : Worker :=
  { running := false, processed := 0, workQueue := [], stopClosed := false,
    taskAlive := false }

/-- `Start`: `CompareAndSwapInt32(&running, 0, 1)`; on success spawn `run`. -/
def Worker.start (w : Worker) : Worker :=
  if w.running then w else { w with running := true, taskAlive := true }

/-- `Stop`: `CompareAndSwapInt32(&running, 1, 0)`; on success `close` the
stop channel.   Closing an already-closed channel is a runtime fault in Go,
modelled as `none`. -/
def Worker.stop (w : Worker) : Option Worker :=
  if w.running then
    if w.stopClosed then none
    else some { w with running := false, stopClosed := true }
  else some w

def Worker.isRunning (w : Worker) : Bool := w.running

def Worker.processedCount (w : Worker) : Int := w.processed

/-- `Submit`: if running, a non-blocking send on the buffered channel —
enqueue if fewer than 100 items are pending, otherwise silently drop; if not
running, a no-op. -/
def Worker.submit (w : Worker) (work : Int) : Worker :=
  if w.isRunning then
    if w.workQueue.length < 100 then { w with workQueue := w.workQueue ++ [work] }
    else w
  else w

/-- One iteration of the background `run` loop, as a step relation: the
`select` either receives a queued item (and increments `processed`) or
observes the closed stop channel (and returns).  When both are ready the
choice is nondeterministic; when neither is, the task blocks (no step). -/
inductive Worker.TaskStep : Worker → Worker → Prop
  | deq (w : Worker) (x : Int) (rest : List Int) :
      w.taskAlive = true → w.workQueue = x :: rest →
      TaskStep w { w with workQueue := rest, processed := wrap64 (w.processed + 1) }
  | stopExit (w : Worker) :
      w.taskAlive = true → w.stopClosed = true →
      TaskStep w { w with taskAlive := false }

/-- Worker states reachable through the package interface from `NewWorker`,
interleaved with background-task steps. -/
inductive Worker.Reach : Worker → Prop
  | base : Reach newWorker
  | start (w : Worker) : Reach w → Reach w.start
  | stop (w w' : Worker) : Reach w → w.stop = some w' → Reach w'
  | submit (w : Worker) (x : Int) : Reach w → Reach (w.submit x)
  | task (w w' : Worker) : Reach w → Worker.TaskStep w w' → Reach w'

theorem worker_reach_queue_le (w : Worker) (h : Worker.Reach w) :
    w.workQueue.length ≤ 100 := by
  induction h with
  | base => decide
  | start w _ ih =>
    have hq : (Worker.start w).workQueue = w.workQueue := by
      unfold Worker.start; split <;> rfl
    rw [hq]; exact ih
  | stop w w' _ heq ih =>
    unfold Worker.stop at heq
    split at heq
    · split at heq
      · exact absurd heq (by simp)
      · have := Option.some.inj heq
        rw [← this]; exact ih
    · have := Option.some.inj heq
      rw [← this]; exact ih
  | submit w x _ ih =>
    unfold Worker.submit Worker.isRunning
    split
    · split
      · simp only [List.length_append, List.length_cons, List.length_nil]
        omega
      · exact ih
    · exact ih
  | task w w' _ hstep ih =>
    cases hstep with
    | deq x rest ha hq =>
      have : rest.length + 1 ≤ 100 := by
        rw [← List.length_cons x rest, ← hq]; exact ih
      simpa using by omega
    | stopExit ha hc => exact ih

/-- Claim C8 (amended): `NewWorker` takes no capacity parameter — the queue
capacity is fixed at the literal 100.  Every worker state reachable through
the interface has at most 100 items pending, and for a running worker
`Submit` enqueues while fewer than 100 items are pending and silently drops
the item once 100 items are pending. -/
theorem worker_capacity_fixed_at_100 (w : Worker) (x : Int)
    (h : Worker.Reach w) :
    w.workQueue.length ≤ 100 ∧
    (w.running = true → w.workQueue.length < 100 →
      (w.submit x).workQueue = w.workQueue ++ [x]) ∧
    (w.running = true → w.workQueue.length = 100 → w.submit x = w) := by
  refine ⟨worker_reach_queue_le w h, ?_, ?_⟩
  · intro hr hl
    simp [Worker.submit, Worker.isRunning, hr, hl]
  · intro hr hl
    simp [Worker.submit, Worker.isRunning, hr, hl]

theorem worker_capacity_fixed_at_100_witness :
    (newWorker.start.submit 5).workQueue = newWorker.start.workQueue ++ [5] :=
  (worker_capacity_fixed_at_100 newWorker.start 5
    (Worker.Reach.start newWorker Worker.Reach.base)).2.1 rfl (by decide)

/-- A started worker whose (never-consuming) queue already holds 100 items. -/
def w8Full : Worker :=
  (List.range 100).foldl (fun w i => w.submit (Int.ofNat i)) newWorker.start

set_option maxRecDepth 8000 in
/-- Claim C8, as stated, is false on the code: `NewWorker` supplies no
capacity to choose — the worker built by the parameterless constructor
accepts exactly 100 pending items and silently drops the 101st, the
capacity being the hard-coded literal 100. -/
theorem worker_capacity_counterexample :
    w8Full.workQueue.length = 100 ∧ w8Full.submit 100 = w8Full := by
  decide

/-- A worker that is not `taskAlive` takes no background-task step. -/
theorem worker_no_taskStep (w w' : Worker) (ha : w.taskAlive = false)
    (h : Worker.TaskStep w w') : False := by
  cases h with
  | deq x rest h1 h2 => rw [ha] at h1; exact Bool.noConfusion h1
  | stopExit h1 h2 => rw [ha] at h1; exact Bool.noConfusion h1

/-- Once the background task has returned, the worker state is stuck under
task steps. -/
theorem worker_stuck (w : Worker) (ha : w.taskAlive = false) (w' : Worker)
    (h : Relation.ReflTransGen Worker.TaskStep w w') : w' = w := by
  induction h with
  | refl => rfl
  | tail hab hbc ih =>
    rw [ih] at hbc
    exact absurd hbc (fun hc => worker_no_taskStep w _ ha hc)

/-- The worker right after `Start` then a completed `Stop`: idle, stop
channel closed, the spawned task not yet returned. -/
def w9Stopped : Worker :=
  { running := false, processed := 0, workQueue := [], stopClosed := true,
    taskAlive := true }

/-- The same worker after its background task observed the closed stop
channel and returned. -/
def w9Dead : Worker := { w9Stopped with taskAlive := false }

/-- The worker after the subsequent `Start`: running again, a fresh task
spawned, but `stopSignal` still the closed channel of the first cycle. -/
def w9Restarted : Worker := w9Dead.start

/-- The restarted worker after its task returned and an item was submitted. -/
def w9Submitted : Worker := ({ w9Restarted with taskAlive := false }).submit 7

/-- Claim C9 is what the code should do but does not: after `Start` and a
completed `Stop`, a new `Start` does transition back to running and spawn a
task, but `stopSignal` is still the closed channel from the first cycle, so
the only step the restarted task can take is to terminate immediately — it
never dequeues a subsequently submitted item, the `processed` counter stays
at 0 forever, and a further `Stop` would close an already-closed channel (a
runtime fault, `none`). -/
theorem worker_restart_task_exits_immediately :
    newWorker.start.stop = some w9Stopped ∧
    Worker.TaskStep w9Stopped w9Dead ∧
    (∀ w', Worker.TaskStep w9Stopped w' → w' = w9Dead) ∧
    w9Restarted.running = true ∧
    w9Restarted.taskAlive = true ∧
    w9Restarted.stopClosed = true ∧
    (∀ w', Worker.TaskStep w9Restarted w' →
      w' = { w9Restarted with taskAlive := false }) ∧
    w9Submitted.workQueue = [7] ∧
    (∀ w', Relation.ReflTransGen Worker.TaskStep w9Submitted w' →
      w'.processed = 0 ∧ w'.workQueue = [7]) ∧
    Worker.stop w9Restarted = none := by
  refine ⟨by decide, Worker.TaskStep.stopExit w9Stopped rfl rfl, ?_, by decide,
    by decide, by decide, ?_, by decide, ?_, by decide⟩
  · intro w' h
    cases h with
    | deq x rest h1 h2 => simp [w9Stopped] at h2
    | stopExit h1 h2 => rfl
  · intro w' h
    cases h with
    | deq x rest h1 h2 =>
      simp [w9Restarted, w9Dead, w9Stopped, Worker.start] at h2
    | stopExit h1 h2 => rfl
  · intro w' h
    rw [worker_stuck w9Submitted rfl w' h]
    decide
